import Mathlib

/-!
Verification of the ghostbay S3-compatible storage gateway.

This file shallow-embeds the parts of the Rust source that the checked
properties speak about:

- the MD5 and SHA-256/HMAC-SHA256 primitives used by the storage engine
  and the SigV4 validator (the md5 and ring crates, modelled bit-exactly
  over Nat with explicit reduction mod 2^32);
- the local storage engine (crates/engine/src/local.rs): single PUT,
  ranged GET, HEAD, and the multipart upload operations;
- the catalog repositories (crates/catalog/src/repository.rs) over the
  sqlite schema of crates/catalog/src/migrations.rs, with the UNIQUE
  constraints made explicit;
- the API error taxonomy (crates/api/src/error.rs) and the handlers
  (crates/api/src/handlers.rs) that wire the three together;
- the SigV4 validator (crates/auth/src/sigv4.rs) and the access-key
  repository (crates/auth/src/keys.rs).

Bytes are Nat values below 256; byte strings are List Nat. Streams of
body chunks are lists of chunk byte lists; the tokio ReaderStream that
backs GET responses is modelled as the list of consecutive chunks of at
most readerChunkCap bytes, its default capacity. Filesystem and catalog
state are association lists keyed exactly as the code keys them.
-/

namespace Ghostbay

deriving instance DecidableEq for Except

/-! ## Byte-level utilities -/

def w32 : Nat := 2 ^ 32

def add32 (a b : Nat) : Nat := (a + b) % w32

def not32 (x : Nat) : Nat := 0xffffffff ^^^ x

def rotl32 (s x : Nat) : Nat := ((x <<< s) ||| (x >>> (32 - s))) % w32

def rotr32 (s x : Nat) : Nat := ((x >>> s) ||| (x <<< (32 - s))) % w32

def shr32 (s x : Nat) : Nat := x >>> s

/-- Little-endian byte rendering of `x` on `n` bytes. -/
def leBytes : Nat → Nat → List Nat
  | 0, _ => []
  | n + 1, x => (x % 256) :: leBytes n (x / 256)

/-- Big-endian byte rendering of `x` on `n` bytes. -/
def beBytes (n x : Nat) : List Nat := (leBytes n x).reverse

/-- Fuel-driven worker for `chunksOf`; structurally recursive so that the
kernel can evaluate it. -/
def chunksOfFuel (n : Nat) : Nat → List α → List (List α)
  | _, [] => []
  | 0, _ :: _ => []
  | fuel + 1, x :: xs => (x :: xs).take n :: chunksOfFuel n fuel (xs.drop (n - 1))

/-- Split a list into consecutive chunks of `n` elements; the last chunk may
be shorter. -/
def chunksOf (n : Nat) (l : List α) : List (List α) := chunksOfFuel n l.length l

theorem chunksOfFuel_flatten (n : Nat) (hn : n ≠ 0) :
    ∀ (fuel : Nat) (l : List α), l.length ≤ fuel →
      (chunksOfFuel n fuel l).flatten = l := by
  intro fuel
  induction fuel with
  | zero =>
    intro l hl
    cases l with
    | nil => rfl
    | cons x xs => simp at hl
  | succ fuel ih =>
    intro l hl
    cases l with
    | nil => rfl
    | cons x xs =>
      simp only [chunksOfFuel, List.flatten_cons]
      have hdrop : xs.drop (n - 1) = (x :: xs).drop n := by
        cases n with
        | zero => exact absurd rfl hn
        | succ m => simp
      rw [hdrop, ih ((x :: xs).drop n) (by simp at hl ⊢; omega)]
      exact List.take_append_drop n (x :: xs)

theorem chunksOf_flatten (n : Nat) (hn : n ≠ 0) (l : List α) :
    (chunksOf n l).flatten = l :=
  chunksOfFuel_flatten n hn l.length l le_rfl

def hexDigitChar (n : Nat) : Char :=
  if n < 10 then Char.ofNat (48 + n) else Char.ofNat (87 + n)

def byteHexChars (b : Nat) : List Char := [hexDigitChar (b / 16), hexDigitChar (b % 16)]

/-- Lowercase hexadecimal rendering of a byte string, as produced by the
`{:x}` Digest formatting and by `hex::encode`. -/
def bytesToHex (bs : List Nat) : String := String.mk (bs.flatMap byteHexChars)

/-- UTF-8 encoding of one scalar value, the byte layout Rust strings use. -/
def utf8Bytes (c : Char) : List Nat :=
  let n := c.toNat
  if n < 0x80 then [n]
  else if n < 0x800 then [0xc0 ||| (n >>> 6), 0x80 ||| (n &&& 0x3f)]
  else if n < 0x10000 then
    [0xe0 ||| (n >>> 12), 0x80 ||| ((n >>> 6) &&& 0x3f), 0x80 ||| (n &&& 0x3f)]
  else
    [0xf0 ||| (n >>> 18), 0x80 ||| ((n >>> 12) &&& 0x3f),
     0x80 ||| ((n >>> 6) &&& 0x3f), 0x80 ||| (n &&& 0x3f)]

/-- The UTF-8 bytes of a string: what `str::as_bytes` exposes in Rust. -/
def strBytes (s : String) : List Nat := s.data.flatMap utf8Bytes

/-- Split a character list at every occurrence of `c`, keeping empty
pieces, the semantics of Rust `str::split(c)`. -/
def splitChars (c : Char) : List Char → List (List Char)
  | [] => [[]]
  | x :: xs =>
    match splitChars c xs with
    | [] => if x == c then [[], []] else [[x]]
    | h :: t => if x == c then [] :: h :: t else (x :: h) :: t

/-- Rust `str::split(c)` collected into a vector of strings. -/
def splitChar (c : Char) (s : String) : List String :=
  (splitChars c s.data).map String.mk

/-- Rust `str::starts_with` for an ASCII literal. -/
def strStartsWith (s pre : String) : Bool :=
  s.data.take pre.data.length == pre.data

/-- Rust byte slicing `&s[n..]` on ASCII content. -/
def strDrop (s : String) (n : Nat) : String := String.mk (s.data.drop n)

def parseNatAux : List Char → Nat → Option Nat
  | [], acc => some acc
  | c :: cs, acc =>
    if c.isDigit then parseNatAux cs (acc * 10 + (c.toNat - 48)) else none

/-- Rust `str::parse::<u64>()`: an optional leading plus sign, then at
least one decimal digit. Overflow past u64::MAX, which the claims never
exercise, is not modelled. -/
def parse_u64 (s : String) : Option Nat :=
  match s.data with
  | [] => none
  | c :: cs =>
    if c == Char.ofNat 43 then
      match cs with
      | [] => none
      | _ => parseNatAux cs 0
    else parseNatAux (c :: cs) 0

/-- Rust `str::parse::<i32>()`: optional sign, then at least one decimal
digit; overflow is not modelled. -/
def parse_i32 (s : String) : Option Int :=
  match s.data with
  | [] => none
  | c :: cs =>
    if c == Char.ofNat 45 then
      match cs with
      | [] => none
      | _ => (parseNatAux cs 0).map (fun n => -(n : Int))
    else if c == Char.ofNat 43 then
      match cs with
      | [] => none
      | _ => (parseNatAux cs 0).map (fun n => (n : Int))
    else (parseNatAux (c :: cs) 0).map (fun n => (n : Int))

/-- Insert `x` into a sorted list, before the first element it is `le`
to, so that equal elements keep their original order. -/
def insertSorted (le : α → α → Bool) (x : α) : List α → List α
  | [] => [x]
  | y :: ys => if le x y then x :: y :: ys else y :: insertSorted le x ys

/-- Stable insertion sort. A stable sort by a total preorder has a
unique result, so this is extensionally the stable merge sort Rust uses
for `sort` and `sort_by_key` and for ORDER BY on a rowid table. -/
def sortByStable (le : α → α → Bool) : List α → List α
  | [] => []
  | x :: xs => insertSorted le x (sortByStable le xs)

theorem insertSorted_perm (le : α → α → Bool) (x : α) (l : List α) :
    (insertSorted le x l).Perm (x :: l) := by
  induction l with
  | nil => exact List.Perm.refl _
  | cons y ys ih =>
    unfold insertSorted
    by_cases h : le x y = true
    · simp [h]
    · simp only [h, if_false]
      exact (ih.cons y).trans (List.Perm.swap x y ys)

theorem sortByStable_perm (le : α → α → Bool) (l : List α) :
    (sortByStable le l).Perm l := by
  induction l with
  | nil => exact List.Perm.refl _
  | cons x xs ih =>
    exact (insertSorted_perm le x (sortByStable le xs)).trans (ih.cons x)

theorem insertSorted_pairwise (le : α → α → Bool)
    (htrans : ∀ a b c, le a b = true → le b c = true → le a c = true)
    (htot : ∀ a b, (le a b || le b a) = true)
    (x : α) (l : List α) (h : l.Pairwise (fun a b => le a b = true)) :
    (insertSorted le x l).Pairwise (fun a b => le a b = true) := by
  induction l with
  | nil => simp [insertSorted]
  | cons y ys ih =>
    rw [List.pairwise_cons] at h
    unfold insertSorted
    by_cases hxy : le x y = true
    · simp only [hxy, if_true]
      refine List.pairwise_cons.mpr ⟨?_, List.pairwise_cons.mpr ⟨h.1, h.2⟩⟩
      intro z hz
      rcases List.mem_cons.mp hz with hzy | hzys
      · exact hzy ▸ hxy
      · exact htrans x y z hxy (h.1 z hzys)
    · simp only [hxy, if_false]
      have hyx : le y x = true := by
        have := htot x y
        simp only [Bool.or_eq_true] at this
        exact this.resolve_left hxy
      refine List.pairwise_cons.mpr ⟨?_, ih h.2⟩
      intro z hz
      have hz2 : z ∈ x :: ys := (insertSorted_perm le x ys).mem_iff.mp hz
      rcases List.mem_cons.mp hz2 with hzx | hzys
      · exact hzx ▸ hyx
      · exact h.1 z hzys

theorem sortByStable_pairwise (le : α → α → Bool)
    (htrans : ∀ a b c, le a b = true → le b c = true → le a c = true)
    (htot : ∀ a b, (le a b || le b a) = true) (l : List α) :
    (sortByStable le l).Pairwise (fun a b => le a b = true) := by
  induction l with
  | nil => simp [sortByStable]
  | cons x xs ih => exact insertSorted_pairwise le htrans htot x _ ih

/-! ## MD5 (RFC 1321), the algorithm of the md5 crate used for ETags -/

def md5S : List Nat :=
  [7, 12, 17, 22, 7, 12, 17, 22, 7, 12, 17, 22, 7, 12, 17, 22,
   5, 9, 14, 20, 5, 9, 14, 20, 5, 9, 14, 20, 5, 9, 14, 20,
   4, 11, 16, 23, 4, 11, 16, 23, 4, 11, 16, 23, 4, 11, 16, 23,
   6, 10, 15, 21, 6, 10, 15, 21, 6, 10, 15, 21, 6, 10, 15, 21]

def md5K : List Nat :=
  [0xd76aa478, 0xe8c7b756, 0x242070db, 0xc1bdceee,
   0xf57c0faf, 0x4787c62a, 0xa8304613, 0xfd469501,
   0x698098d8, 0x8b44f7af, 0xffff5bb1, 0x895cd7be,
   0x6b901122, 0xfd987193, 0xa679438e, 0x49b40821,
   0xf61e2562, 0xc040b340, 0x265e5a51, 0xe9b6c7aa,
   0xd62f105d, 0x02441453, 0xd8a1e681, 0xe7d3fbc8,
   0x21e1cde6, 0xc33707d6, 0xf4d50d87, 0x455a14ed,
   0xa9e3e905, 0xfcefa3f8, 0x676f02d9, 0x8d2a4c8a,
   0xfffa3942, 0x8771f681, 0x6d9d6122, 0xfde5380c,
   0xa4beea44, 0x4bdecfa9, 0xf6bb4b60, 0xbebfbc70,
   0x289b7ec6, 0xeaa127fa, 0xd4ef3085, 0x04881d05,
   0xd9d4d039, 0xe6db99e5, 0x1fa27cf8, 0xc4ac5665,
   0xf4292244, 0x432aff97, 0xab9423a7, 0xfc93a039,
   0x655b59c3, 0x8f0ccc92, 0xffeff47d, 0x85845dd1,
   0x6fa87e4f, 0xfe2ce6e0, 0xa3014314, 0x4e0811a1,
   0xf7537e82, 0xbd3af235, 0x2ad7d2bb, 0xeb86d391]

def md5F (i b c d : Nat) : Nat :=
  if i < 16 then (b &&& c) ||| (not32 b &&& d)
  else if i < 32 then (d &&& b) ||| (not32 d &&& c)
  else if i < 48 then b ^^^ c ^^^ d
  else c ^^^ (b ||| not32 d)

def md5G (i : Nat) : Nat :=
  if i < 16 then i
  else if i < 32 then (5 * i + 1) % 16
  else if i < 48 then (3 * i + 5) % 16
  else (7 * i) % 16

/-- One MD5 round step on state `(a, b, c, d)`. -/
def md5Step (m : List Nat) (st : Nat × Nat × Nat × Nat) (i : Nat) :
    Nat × Nat × Nat × Nat :=
  match st with
  | (a, b, c, d) =>
    let f := md5F i b c d
    let g := md5G i
    let sum := add32 (add32 a f) (add32 (md5K.getD i 0) (m.getD g 0))
    (d, add32 b (rotl32 (md5S.getD i 0) sum), b, c)

/-- Decode a 64-byte block into sixteen little-endian 32-bit words. -/
def md5Words (block : List Nat) : List Nat :=
  (chunksOf 4 block).map (fun ws => ws.foldr (fun b acc => acc * 256 + b) 0)

def md5Compress (st : Nat × Nat × Nat × Nat) (block : List Nat) :
    Nat × Nat × Nat × Nat :=
  let m := md5Words block
  match st, (List.range 64).foldl (md5Step m) st with
  | (a, b, c, d), (a2, b2, c2, d2) =>
    (add32 a a2, add32 b b2, add32 c c2, add32 d d2)

/-- RFC 1321 padding: 0x80, zeros to 56 mod 64, then the 64-bit
little-endian bit length. -/
def md5Pad (msg : List Nat) : List Nat :=
  let padZeros := (56 + 64 - (msg.length + 1) % 64) % 64
  msg ++ [0x80] ++ List.replicate padZeros 0 ++ leBytes 8 ((8 * msg.length) % 2 ^ 64)

def md5Bytes (msg : List Nat) : List Nat :=
  match (chunksOf 64 (md5Pad msg)).foldl md5Compress
      (0x67452301, 0xefcdab89, 0x98badcfe, 0x10325476) with
  | (a, b, c, d) => leBytes 4 a ++ leBytes 4 b ++ leBytes 4 c ++ leBytes 4 d

/-- Lowercase hex MD5 of a byte string: the value of
`format!("{:x}", hasher.finalize())` after the hasher consumed exactly
these bytes. Feeding the hasher chunk by chunk hashes their
concatenation, so streaming PUTs are modelled by applying `md5Hex` to the
flattened chunk list. -/
def md5Hex (msg : List Nat) : String := bytesToHex (md5Bytes msg)

/-! ## SHA-256 and HMAC-SHA256 (the ring primitives used by SigV4) -/

def sha256K : List Nat :=
  [1116352408, 1899447441, 3049323471, 3921009573, 961987163,
   1508970993, 2453635748, 2870763221, 3624381080, 310598401,
   607225278, 1426881987, 1925078388, 2162078206, 2614888103,
   3248222580, 3835390401, 4022224774, 264347078, 604807628,
   770255983, 1249150122, 1555081692, 1996064986, 2554220882,
   2821834349, 2952996808, 3210313671, 3336571891, 3584528711,
   113926993, 338241895, 666307205, 773529912, 1294757372,
   1396182291, 1695183700, 1986661051, 2177026350, 2456956037,
   2730485921, 2820302411, 3259730800, 3345764771, 3516065817,
   3600352804, 4094571909, 275423344, 430227734, 506948616,
   659060556, 883997877, 958139571, 1322822218, 1537002063,
   1747873779, 1955562222, 2024104815, 2227730452, 2361852424,
   2428436474, 2756734187, 3204031479, 3329325298]

structure Sha256State where
  a : Nat
  b : Nat
  c : Nat
  d : Nat
  e : Nat
  f : Nat
  g : Nat
  h : Nat

def sha256H0 : Sha256State :=
  ⟨1779033703, 3144134277, 1013904242, 2773480762,
   1359893119, 2600822924, 528734635, 1541459225⟩

/-- Decode big-endian bytes into one word. -/
def beWord (bs : List Nat) : Nat := bs.foldl (fun acc b => acc * 256 + b) 0

/-- The 64-entry message schedule of one block. -/
def sha256Schedule (block : List Nat) : List Nat :=
  let w16 := (chunksOf 4 block).map beWord
  (List.range 48).foldl
    (fun w _ =>
      let i := w.length
      let s0 :=
        (rotr32 7 (w.getD (i - 15) 0)) ^^^ (rotr32 18 (w.getD (i - 15) 0)) ^^^
          (shr32 3 (w.getD (i - 15) 0))
      let s1 :=
        (rotr32 17 (w.getD (i - 2) 0)) ^^^ (rotr32 19 (w.getD (i - 2) 0)) ^^^
          (shr32 10 (w.getD (i - 2) 0))
      w ++ [(w.getD (i - 16) 0 + s0 + w.getD (i - 7) 0 + s1) % w32])
    w16

def sha256Round (w : List Nat) (st : Sha256State) (i : Nat) : Sha256State :=
  let s1 := (rotr32 6 st.e) ^^^ (rotr32 11 st.e) ^^^ (rotr32 25 st.e)
  let ch := (st.e &&& st.f) ^^^ (not32 st.e &&& st.g)
  let t1 := (st.h + s1 + ch + sha256K.getD i 0 + w.getD i 0) % w32
  let s0 := (rotr32 2 st.a) ^^^ (rotr32 13 st.a) ^^^ (rotr32 22 st.a)
  let mj := (st.a &&& st.b) ^^^ (st.a &&& st.c) ^^^ (st.b &&& st.c)
  let t2 := (s0 + mj) % w32
  ⟨(t1 + t2) % w32, st.a, st.b, st.c, (st.d + t1) % w32, st.e, st.f, st.g⟩

def sha256Compress (st : Sha256State) (block : List Nat) : Sha256State :=
  let w := sha256Schedule block
  let r := (List.range 64).foldl (sha256Round w) st
  ⟨add32 st.a r.a, add32 st.b r.b, add32 st.c r.c, add32 st.d r.d,
   add32 st.e r.e, add32 st.f r.f, add32 st.g r.g, add32 st.h r.h⟩

/-- FIPS 180-4 padding: 0x80, zeros to 56 mod 64, 64-bit big-endian bit
length. -/
def sha256Pad (msg : List Nat) : List Nat :=
  let padZeros := (56 + 64 - (msg.length + 1) % 64) % 64
  msg ++ [0x80] ++ List.replicate padZeros 0 ++ beBytes 8 ((8 * msg.length) % 2 ^ 64)

def sha256Bytes (msg : List Nat) : List Nat :=
  let st := (chunksOf 64 (sha256Pad msg)).foldl sha256Compress sha256H0
  beBytes 4 st.a ++ beBytes 4 st.b ++ beBytes 4 st.c ++ beBytes 4 st.d ++
    beBytes 4 st.e ++ beBytes 4 st.f ++ beBytes 4 st.g ++ beBytes 4 st.h

/-- HMAC-SHA256 over byte strings, the `ring::hmac` construction the
validator chains for its signing key. -/
def hmacSha256 (key msg : List Nat) : List Nat :=
  let k0 := if key.length > 64 then sha256Bytes key else key
  let kp := k0 ++ List.replicate (64 - k0.length) 0
  sha256Bytes ((kp.map (fun b => 0x5c ^^^ b)) ++
    sha256Bytes ((kp.map (fun b => 0x36 ^^^ b)) ++ msg))

/-! ## SigV4 validator (crates/auth/src/sigv4.rs)

The request timestamp is a chrono `DateTime<Utc>`. The model carries it
as the instant in whole seconds together with the two string renderings
the code asks chrono for; rendering a calendar date is chrono library
behavior, external to this repository. -/

structure Timestamp where
  epoch : Int
  dateStr : String
  dateTimeStr : String
deriving DecidableEq

/-- Bytes left intact by `urlencoding::encode`: ASCII alphanumerics and
`-`, `.`, `_`, `~`. -/
def unreservedByte (b : Nat) : Bool :=
  (65 ≤ b && b ≤ 90) || (97 ≤ b && b ≤ 122) || (48 ≤ b && b ≤ 57) ||
    b == 45 || b == 46 || b == 95 || b == 126

def hexDigitCharUpper (n : Nat) : Char :=
  if n < 10 then Char.ofNat (48 + n) else Char.ofNat (55 + n)

/-- Percent-encoding of `urlencoding::encode`: every UTF-8 byte outside
the unreserved set becomes `%XX` with uppercase hex. -/
def percentEncode (s : String) : String :=
  String.mk ((strBytes s).flatMap (fun b =>
    if unreservedByte b then [Char.ofNat b]
    else [Char.ofNat 37, hexDigitCharUpper (b / 16), hexDigitCharUpper (b % 16)]))

/-- Byte-lexicographic order on byte strings; `true` when `a ≤ b`. -/
def lexLeBytes : List Nat → List Nat → Bool
  | [], _ => true
  | _ :: _, [] => false
  | a :: as, b :: bs => if a < b then true else if b < a then false else lexLeBytes as bs

/-- The ordering Rust `String` values sort by: lexicographic on UTF-8
bytes. -/
def strLeBytes (a b : String) : Bool := lexLeBytes (strBytes a) (strBytes b)

/-- Rust `str::split_once`: split at the first occurrence of the
separator character, or fail. -/
def splitOnceChar (s : String) (c : Char) : Option (String × String) :=
  match splitChar c s with
  | [] => none
  | [_] => none
  | p :: rest => some (p, String.intercalate (String.mk [c]) rest)

def canonical_uri_encode (uri : String) : String :=
  if uri = "" then "/"
  else String.intercalate "/" ((splitChar '/' uri).map percentEncode)

def canonical_query_string (query : String) : String :=
  if query = "" then ""
  else
    let params := (splitChar '&' query).map (fun param =>
      match splitOnceChar param '=' with
      | some (k, v) => percentEncode k ++ "=" ++ percentEncode v
      | none => percentEncode param ++ "=")
    String.intercalate "&" (sortByStable strLeBytes params)

/-- Lowercase names, trim values, sort by name; returns the canonical
headers block (with its trailing newline) and the signed-headers list.
The source collects the header map into a vector before sorting; the
model receives that vector. -/
def canonical_headers (headers : List (String × String)) : String × String :=
  let hs := headers.map (fun kv => (kv.1.toLower, kv.2.trim))
  let sorted := sortByStable (fun x y => strLeBytes x.1 y.1) hs
  (String.intercalate "\n" (sorted.map (fun kv => kv.1 ++ ":" ++ kv.2)) ++ "\n",
   String.intercalate ";" (sorted.map (fun kv => kv.1)))

def create_canonical_request (method uri query_string : String)
    (headers : List (String × String)) (payload_hash : String) : String :=
  let canonical_uri := canonical_uri_encode uri
  let canonical_query := canonical_query_string query_string
  let ch := canonical_headers headers
  method ++ "\n" ++ canonical_uri ++ "\n" ++ canonical_query ++ "\n" ++
    ch.1 ++ "\n" ++ ch.2 ++ "\n" ++ payload_hash

def create_string_to_sign (canonical_request : String) (timestamp : Timestamp)
    (region service : String) : String :=
  let credential_scope :=
    timestamp.dateStr ++ "/" ++ region ++ "/" ++ service ++ "/aws4_request"
  "AWS4-HMAC-SHA256" ++ "\n" ++ timestamp.dateTimeStr ++ "\n" ++
    credential_scope ++ "\n" ++ bytesToHex (sha256Bytes (strBytes canonical_request))

def get_signing_key (secret_key : String) (timestamp : Timestamp)
    (region service : String) : List Nat :=
  let k_secret := strBytes ("AWS4" ++ secret_key)
  let k_date := hmacSha256 k_secret (strBytes timestamp.dateStr)
  let k_region := hmacSha256 k_date (strBytes region)
  let k_service := hmacSha256 k_region (strBytes service)
  hmacSha256 k_service (strBytes "aws4_request")

def calculate_signature (signing_key : List Nat) (string_to_sign : String) : String :=
  bytesToHex (hmacSha256 signing_key (strBytes string_to_sign))

/-- The comparison the validator performs, `expected_signature ==
signature` on Rust strings: equality of the underlying UTF-8 byte
slices. -/
def sigEqual (a b : String) : Bool := strBytes a == strBytes b

/-- The 15-minute clock-skew window, `Duration::minutes(15)` in seconds. -/
def skewLimitSeconds : Nat := 900

/-- SigV4Validator::validate_signature. `now` is the Utc::now() instant
the code samples, in seconds. The only `Err` exit is the clock-skew
check; otherwise the result is `Ok` of the comparison outcome. -/
def validate_signature (secret_key access_key method uri query_string : String)
    (headers : List (String × String)) (payload_hash signature : String)
    (timestamp : Timestamp) (now : Int) (region service : String) :
    Except String Bool :=
  if (now - timestamp.epoch).natAbs > skewLimitSeconds then
    .error "Request timestamp too old"
  else
    let canonical_request :=
      create_canonical_request method uri query_string headers payload_hash
    let string_to_sign :=
      create_string_to_sign canonical_request timestamp region service
    let signing_key := get_signing_key secret_key timestamp region service
    let expected_signature := calculate_signature signing_key string_to_sign
    .ok (sigEqual expected_signature signature)

def isOkE : Except ε α → Bool
  | .ok _ => true
  | .error _ => false

/-! ## Cost model of the signature comparison

Rust compares two `String` values by comparing lengths and then running
a memcmp-style scan over the bytes that stops at the first difference.
`bytesEqCost` returns that comparison outcome together with the number
of byte comparisons executed, the quantity a timing side channel
observes. -/

def bytesEqCost : List Nat → List Nat → Nat × Bool
  | [], [] => (0, true)
  | [], _ :: _ => (0, false)
  | _ :: _, [] => (0, false)
  | a :: as, b :: bs =>
    if a == b then
      let r := bytesEqCost as bs
      (r.1 + 1, r.2)
    else (1, false)

/-! ## Access keys (crates/auth/src/keys.rs)

Rows of the access_keys table; `access_key_id` is UNIQUE in the schema.
Expirations are instants in seconds (the code stores RFC 3339 text and
compares against `Utc::now()`). -/

structure AccessKey where
  accessKeyId : String
  secretAccessKey : String
  expiresAt : Option Int
  isActive : Bool
deriving DecidableEq

/-- AccessKeyRepository::find_by_access_key_id: SELECT ... WHERE
access_key_id = ? AND is_active = true, fetch_optional. -/
def find_by_access_key_id (table : List AccessKey) (access_key_id : String) :
    Option AccessKey :=
  table.find? (fun k => k.accessKeyId == access_key_id && k.isActive)

/-- AccessKeyRepository::deactivate: UPDATE access_keys SET is_active =
false WHERE access_key_id = ?. -/
def deactivate (table : List AccessKey) (access_key_id : String) : List AccessKey :=
  table.map (fun k =>
    if k.accessKeyId == access_key_id then { k with isActive := false } else k)

/-- AccessKeyRepository::cleanup_expired: UPDATE access_keys SET
is_active = false WHERE expires_at IS NOT NULL AND expires_at < now. -/
def cleanup_expired (table : List AccessKey) (now : Int) : List AccessKey :=
  table.map (fun k =>
    match k.expiresAt with
    | some e => if e < now then { k with isActive := false } else k
    | none => k)

/-! ## Storage engine (crates/engine/src/local.rs)

The data directory maps `(bucket, key)` to the file contents at
`data_dir/bucket/key`; rename-over-target replaces the entry. The temp
directory holds one `UploadDir` per multipart upload id: the values of
`metadata.json` plus the `part_NNNNN` files keyed by part number (the
zero-padded rendering is injective over part numbers). -/

abbrev Fs : Type := List ((String × String) × List Nat)

def fs_lookup (fs : Fs) (bucket key : String) : Option (List Nat) :=
  (fs.find? (fun e => e.1.1 == bucket && e.1.2 == key)).map (fun e => e.2)

def fs_write (fs : Fs) (bucket key : String) (contents : List Nat) : Fs :=
  ((bucket, key), contents) ::
    fs.filter (fun e => !(e.1.1 == bucket && e.1.2 == key))

structure UploadDir where
  metaBucket : String
  metaKey : String
  partFiles : List (Int × List Nat)
deriving DecidableEq

abbrev TmpDirs : Type := List (String × UploadDir)

def tmp_lookup (tds : TmpDirs) (upload_id : String) : Option UploadDir :=
  (tds.find? (fun e => e.1 == upload_id)).map (fun e => e.2)

def tmp_remove (tds : TmpDirs) (upload_id : String) : TmpDirs :=
  tds.filter (fun e => !(e.1 == upload_id))

def part_file_lookup (dir : UploadDir) (part_number : Int) : Option (List Nat) :=
  (dir.partFiles.find? (fun q => q.1 == part_number)).map (fun q => q.2)

/-- LocalStorageEngine::put_object. The body arrives as a stream of
chunks; each chunk feeds the running MD5 and is appended to a temp file
that is finally renamed over the target path, so the stored bytes and
the hashed bytes are both the chunk concatenation. Returns the ETag and
the updated data directory. -/
def put_object (fs : Fs) (bucket key : String) (chunks : List (List Nat)) :
    String × Fs :=
  let contents := chunks.flatten
  (md5Hex contents, fs_write fs bucket key contents)

/-- Extension of the final path component, per `Path::extension`. -/
def extensionOf (key : String) : String :=
  let base := (splitChar '/' key).getLastD ""
  match splitChar '.' base with
  | [] => ""
  | [_] => ""
  | p :: rest => if p = "" && rest.length = 1 then "" else rest.getLastD ""

def guess_content_type (key : String) : String :=
  match extensionOf key with
  | "txt" => "text/plain"
  | "html" => "text/html"
  | "htm" => "text/html"
  | "css" => "text/css"
  | "js" => "application/javascript"
  | "json" => "application/json"
  | "xml" => "application/xml"
  | "jpg" => "image/jpeg"
  | "jpeg" => "image/jpeg"
  | "png" => "image/png"
  | "gif" => "image/gif"
  | "svg" => "image/svg+xml"
  | "pdf" => "application/pdf"
  | "zip" => "application/zip"
  | _ => "binary/octet-stream"

structure ObjectMetadata where
  contentType : String
  contentLength : Nat
  etag : String
deriving DecidableEq

/-- Default capacity of `tokio_util::io::ReaderStream`, the chunk size of
the stream a GET response is built from. -/
def readerChunkCap : Nat := 4096

/-- LocalStorageEngine::get_object. The ETag is the double-quoted file
size. On a range request the code clamps `end`, rejects `start > end`
and `start >= len`, and then applies `.skip(start)` and
`.take(end - start + 1)` to the chunk stream, so both combinators count
stream items, not bytes; the model flattens the resulting chunk list
into the delivered body. -/
def get_object (fs : Fs) (bucket key : String)
    (range : Option (Nat × Option Nat)) :
    Except String (Option (ObjectMetadata × List Nat)) :=
  match fs_lookup fs bucket key with
  | none => .ok none
  | some contents =>
    let len := contents.length
    let meta : ObjectMetadata :=
      ⟨guess_content_type key, len, "\"" ++ toString len ++ "\""⟩
    match range with
    | none => .ok (some (meta, (chunksOf readerChunkCap contents).flatten))
    | some (start, endOpt) =>
      let e := min (endOpt.getD (len - 1)) (len - 1)
      if start > e || start ≥ len then
        .error ("Invalid range: " ++ toString start ++ "-" ++ toString e)
      else
        .ok (some (meta,
          (((chunksOf readerChunkCap contents).drop start).take (e - start + 1)).flatten))

/-- LocalStorageEngine::head_object: metadata only, same
size-derived ETag. -/
def head_object (fs : Fs) (bucket key : String) : Option ObjectMetadata :=
  match fs_lookup fs bucket key with
  | none => none
  | some contents =>
    some ⟨guess_content_type key, contents.length,
      "\"" ++ toString contents.length ++ "\""⟩

/-- LocalStorageEngine::upload_part: requires the upload temp dir,
creates (truncating) `part_NNNNN`, streams the body through MD5, and
returns the part ETag with the updated temp dirs. -/
def engine_upload_part (tds : TmpDirs) (upload_id : String) (part_number : Int)
    (chunks : List (List Nat)) : Except String (String × TmpDirs) :=
  match tmp_lookup tds upload_id with
  | none => .error ("Multipart upload not found: " ++ upload_id)
  | some dir =>
    let contents := chunks.flatten
    let dir2 : UploadDir :=
      { dir with
        partFiles := (part_number, contents) ::
          dir.partFiles.filter (fun q => !(q.1 == part_number)) }
    .ok (md5Hex contents,
      tds.map (fun e => if e.1 == upload_id then (e.1, dir2) else e))

structure MultipartUploadPart where
  part_number : Int
  etag : String
  size : Nat
deriving DecidableEq

/-- The comparison of `sorted_parts.sort_by_key(|p| p.part_number)`. -/
def partLe (p q : MultipartUploadPart) : Bool :=
  decide (p.part_number ≤ q.part_number)

structure CompleteMultipartUploadRequest where
  bucket : String
  key : String
  upload_id : String
  parts : List MultipartUploadPart
deriving DecidableEq

/-- LocalStorageEngine::complete_multipart_upload. Checks the temp dir,
the metadata bucket/key, sorts the requested parts by part number
(stably, as `sort_by_key` does), verifies every referenced part file
exists, then concatenates the parts into the final object path, removes
the temp dir, and returns the composite ETag: the hex MD5 of the
concatenated raw part-ETag strings, a dash, and the part count. -/
def complete_multipart_upload (tds : TmpDirs) (fs : Fs)
    (request : CompleteMultipartUploadRequest) :
    Except String (String × TmpDirs × Fs) :=
  match tmp_lookup tds request.upload_id with
  | none => .error ("Multipart upload not found: " ++ request.upload_id)
  | some dir =>
    if dir.metaBucket != request.bucket || dir.metaKey != request.key then
      .error "Bucket/key mismatch in multipart upload"
    else
      let sorted_parts := sortByStable partLe request.parts
      match sorted_parts.find?
          (fun p => (part_file_lookup dir p.part_number).isNone) with
      | some p => .error ("Part " ++ toString p.part_number ++ " not found")
      | none =>
        let contents :=
          (sorted_parts.map
            (fun p => (part_file_lookup dir p.part_number).getD [])).flatten
        let etag_parts := (sorted_parts.map (fun p => strBytes p.etag)).flatten
        let final_etag := md5Hex etag_parts ++ "-" ++ toString sorted_parts.length
        .ok (final_etag, tmp_remove tds request.upload_id,
          fs_write fs request.bucket request.key contents)

/-! ## Catalog (crates/catalog): rows and repository operations -/

structure BucketRow where
  id : Nat
  name : String
deriving DecidableEq

structure ObjRow where
  bucketId : Nat
  key : String
  etag : String
  size : Nat
  contentType : String
deriving DecidableEq

structure UploadRow where
  id : Nat
  bucketId : Nat
  objectKey : String
  uploadId : String
deriving DecidableEq

structure PartRow where
  uploadRowId : Nat
  partNumber : Int
  etag : String
  size : Nat
deriving DecidableEq

def bucket_find_by_name (buckets : List BucketRow) (name : String) :
    Option BucketRow :=
  buckets.find? (fun b => b.name == name)

def object_find_by_bucket_and_key (objects : List ObjRow) (bucketId : Nat)
    (key : String) : Option ObjRow :=
  objects.find? (fun o => o.bucketId == bucketId && o.key == key)

def uniqueViolationObjects : String :=
  "UNIQUE constraint failed: objects.bucket_id, objects.key"

/-- ObjectRepository::create: a plain INSERT; the schema declares
UNIQUE(bucket_id, key), so inserting over an existing (bucket, key)
fails with a constraint violation instead of replacing the row. -/
def object_create (objects : List ObjRow) (row : ObjRow) :
    Except String (List ObjRow) :=
  if objects.any (fun o => o.bucketId == row.bucketId && o.key == row.key) then
    .error uniqueViolationObjects
  else .ok (objects ++ [row])

def upload_find_by_upload_id (uploads : List UploadRow) (upload_id : String) :
    Option UploadRow :=
  uploads.find? (fun u => u.uploadId == upload_id)

def uniqueViolationParts : String :=
  "UNIQUE constraint failed: multipart_parts.upload_id, multipart_parts.part_number"

/-- MultipartPartRepository::create: a plain INSERT against
UNIQUE(upload_id, part_number). -/
def multipart_part_create (parts : List PartRow) (row : PartRow) :
    Except String (List PartRow) :=
  if parts.any (fun q =>
      q.uploadRowId == row.uploadRowId && q.partNumber == row.partNumber) then
    .error uniqueViolationParts
  else .ok (parts ++ [row])

/-- MultipartPartRepository::list_by_upload: WHERE upload_id = ? ORDER BY
part_number. -/
def multipart_part_list_by_upload (parts : List PartRow) (uploadRowId : Nat) :
    List PartRow :=
  sortByStable (fun a b => decide (a.partNumber ≤ b.partNumber))
    (parts.filter (fun q => q.uploadRowId == uploadRowId))

def multipart_part_delete_by_upload (parts : List PartRow) (uploadRowId : Nat) :
    List PartRow :=
  parts.filter (fun q => !(q.uploadRowId == uploadRowId))

def multipart_upload_delete (uploads : List UploadRow) (upload_id : String) :
    List UploadRow :=
  uploads.filter (fun u => !(u.uploadId == upload_id))

/-! ## API errors (crates/api/src/error.rs) -/

inductive ApiError where
  | bucketNotFound (msg : String)
  | objectNotFound (msg : String)
  | bucketAlreadyExists (msg : String)
  | invalidBucketName (msg : String)
  | invalidObjectKey (msg : String)
  | authenticationFailed (msg : String)
  | authorizationFailed (msg : String)
  | internal (msg : String)
  | database (msg : String)
  | storage (msg : String)
  | badRequest (msg : String)
deriving DecidableEq

/-- HTTP status assigned by ApiError::into_response. -/
def statusOf : ApiError → Nat
  | .bucketNotFound _ => 404
  | .objectNotFound _ => 404
  | .bucketAlreadyExists _ => 409
  | .invalidBucketName _ => 400
  | .invalidObjectKey _ => 400
  | .authenticationFailed _ => 401
  | .authorizationFailed _ => 403
  | .badRequest _ => 400
  | .storage _ => 500
  | .internal _ => 500
  | .database _ => 500

/-- S3 error code assigned by ApiError::into_response. -/
def errorCodeOf : ApiError → String
  | .bucketNotFound _ => "NoSuchBucket"
  | .objectNotFound _ => "NoSuchKey"
  | .bucketAlreadyExists _ => "BucketAlreadyExists"
  | .invalidBucketName _ => "InvalidBucketName"
  | .invalidObjectKey _ => "InvalidObjectKey"
  | .authenticationFailed _ => "AccessDenied"
  | .authorizationFailed _ => "AccessDenied"
  | .badRequest _ => "InvalidRequest"
  | .storage _ => "InternalError"
  | .internal _ => "InternalError"
  | .database _ => "InternalError"

/-! ## Handlers (crates/api/src/handlers.rs)

One state record carries both stores the handlers touch: the catalog
tables and the two storage-engine directories. Handlers return the
response (or ApiError) together with the post-call state, since a
failing call can still have mutated storage. -/

structure SysState where
  buckets : List BucketRow
  objects : List ObjRow
  uploads : List UploadRow
  partRows : List PartRow
  files : Fs
  tmpDirs : TmpDirs
deriving DecidableEq

/-- handlers::parse_range_header: strip `bytes=`, split on every dash,
demand exactly two pieces, parse the first as u64 and the second as an
optional u64. -/
def parse_range_header (range : String) : Option (Nat × Option Nat) :=
  if !strStartsWith range "bytes=" then none
  else
    let r := strDrop range 6
    let parts := splitChar '-' r
    if parts.length ≠ 2 then none
    else
      match parse_u64 (parts.getD 0 "") with
      | none => none
      | some start =>
        if parts.getD 1 "" = "" then some (start, none)
        else
          match parse_u64 (parts.getD 1 "") with
          | none => none
          | some e => some (start, some e)

/-- handlers::put_object: resolve the bucket, stream the single-chunk
body through the engine (rename lands before the catalog insert), then
INSERT the object row; the response carries the double-quoted ETag. -/
def api_put_object (st : SysState) (bucket_name key : String)
    (body : List Nat) (content_type : String) :
    Except ApiError String × SysState :=
  match bucket_find_by_name st.buckets bucket_name with
  | none => (.error (.bucketNotFound bucket_name), st)
  | some bucket =>
    let pr := put_object st.files bucket_name key [body]
    let st2 : SysState := { st with files := pr.2 }
    match object_create st2.objects
        ⟨bucket.id, key, pr.1, body.length, content_type⟩ with
    | .error e => (.error (.database e), st2)
    | .ok objs2 => (.ok ("\"" ++ pr.1 ++ "\""), { st2 with objects := objs2 })

structure GetObjectResult where
  contentType : String
  contentLength : Nat
  etag : String
  body : List Nat
deriving DecidableEq

/-- handlers::get_object: bucket, then catalog row, then the engine; the
Content-Length header is the engine metadata content_length and engine
errors are wrapped as ApiError::Storage. Read-only, so no state out. -/
def api_get_object (st : SysState) (bucket_name key : String)
    (range_header : Option String) : Except ApiError GetObjectResult :=
  match bucket_find_by_name st.buckets bucket_name with
  | none => .error (.bucketNotFound bucket_name)
  | some bucket =>
    match object_find_by_bucket_and_key st.objects bucket.id key with
    | none => .error (.objectNotFound key)
    | some _ =>
      let range := range_header.bind parse_range_header
      match get_object st.files bucket_name key range with
      | .error e => .error (.storage e)
      | .ok none => .error (.objectNotFound key)
      | .ok (some md) =>
        .ok ⟨md.1.contentType, md.1.contentLength, md.1.etag, md.2⟩

/-- handlers::head_object: same resolution chain, metadata only. -/
def api_head_object (st : SysState) (bucket_name key : String) :
    Except ApiError ObjectMetadata :=
  match bucket_find_by_name st.buckets bucket_name with
  | none => .error (.bucketNotFound bucket_name)
  | some bucket =>
    match object_find_by_bucket_and_key st.objects bucket.id key with
    | none => .error (.objectNotFound key)
    | some _ =>
      match head_object st.files bucket_name key with
      | none => .error (.objectNotFound key)
      | some meta => .ok meta

/-- handlers::upload_part: parameter checks, the 1..=10000 bound, upload
row lookup, engine write of the part file, then the plain part-row
INSERT. -/
def api_upload_part (st : SysState) (_bucket_name _key : String)
    (uploadIdParam : Option String) (partNumberParam : Option String)
    (body : List Nat) : Except ApiError String × SysState :=
  match uploadIdParam with
  | none => (.error (.badRequest "Missing uploadId parameter"), st)
  | some upload_id =>
    match partNumberParam with
    | none => (.error (.badRequest "Missing partNumber parameter"), st)
    | some pstr =>
      match parse_i32 pstr with
      | none => (.error (.badRequest "Invalid partNumber"), st)
      | some part_number =>
        if part_number < 1 || part_number > 10000 then
          (.error (.badRequest "Part number must be between 1 and 10000"), st)
        else
          match upload_find_by_upload_id st.uploads upload_id with
          | none => (.error (.badRequest "Upload not found"), st)
          | some upload =>
            match engine_upload_part st.tmpDirs upload_id part_number [body] with
            | .error e => (.error (.storage e), st)
            | .ok etds =>
              let st2 : SysState := { st with tmpDirs := etds.2 }
              match multipart_part_create st2.partRows
                  ⟨upload.id, part_number, etds.1, body.length⟩ with
              | .error e => (.error (.database e), st2)
              | .ok ps2 =>
                (.ok ("\"" ++ etds.1 ++ "\""), { st2 with partRows := ps2 })

/-- One entry of the completion request body. -/
structure CompletedPartRequest where
  part_number : Int
  etag : String
deriving DecidableEq

/-- Rust `trim_matches` with a double-quote pattern: strip every leading
and trailing quote character. -/
def trimQuotes (s : String) : String :=
  String.mk
    (((s.data.dropWhile (fun c => c == Char.ofNat 34)).reverse.dropWhile
        (fun c => c == Char.ofNat 34)).reverse)

/-- handlers::complete_multipart_upload: parameter and row resolution,
the bucket/key consistency check against the upload row, the engine
completion (errors become ApiError::Storage), then the object-row
INSERT sized by the summed catalog part rows, and finally deletion of
the part and upload rows. -/
def api_complete_multipart_upload (st : SysState) (bucket_name key : String)
    (uploadIdParam : Option String) (req_parts : List CompletedPartRequest) :
    Except ApiError String × SysState :=
  match uploadIdParam with
  | none => (.error (.badRequest "Missing uploadId parameter"), st)
  | some upload_id =>
    match upload_find_by_upload_id st.uploads upload_id with
    | none => (.error (.badRequest "Upload not found"), st)
    | some upload =>
      match bucket_find_by_name st.buckets bucket_name with
      | none => (.error (.bucketNotFound bucket_name), st)
      | some bucket =>
        if upload.bucketId != bucket.id || upload.objectKey != key then
          (.error (.badRequest "Upload bucket/key mismatch"), st)
        else
          let parts := req_parts.map (fun p =>
            (⟨p.part_number, trimQuotes p.etag, 0⟩ : MultipartUploadPart))
          match complete_multipart_upload st.tmpDirs st.files
              ⟨bucket_name, key, upload_id, parts⟩ with
          | .error e => (.error (.storage e), st)
          | .ok res =>
            let st2 : SysState := { st with tmpDirs := res.2.1, files := res.2.2 }
            let parts_list := multipart_part_list_by_upload st2.partRows upload.id
            let total_size := (parts_list.map (fun q => q.size)).sum
            match object_create st2.objects
                ⟨bucket.id, key, res.1, total_size, "binary/octet-stream"⟩ with
            | .error e => (.error (.database e), st2)
            | .ok objs2 =>
              let st3 : SysState :=
                { st2 with
                  objects := objs2,
                  partRows := multipart_part_delete_by_upload st2.partRows upload.id,
                  uploads := multipart_upload_delete st2.uploads upload_id }
              (.ok ("\"" ++ res.1 ++ "\""), st3)

/-! ## Helper lemmas -/

theorem find?_append_last (p : α → Bool) (l : List α) (x : α)
    (hl : ∀ y ∈ l, p y = false) (hx : p x = true) :
    (l ++ [x]).find? p = some x := by
  induction l with
  | nil => simp [List.find?, hx]
  | cons a as ih =>
    have ha := hl a (by simp)
    simp only [List.cons_append, List.find?, ha]
    exact ih (fun y hy => hl y (by simp [hy]))

theorem fs_lookup_write (fs : Fs) (b k : String) (p : List Nat) :
    fs_lookup (fs_write fs b k p) b k = some p := by
  simp [fs_lookup, fs_write, List.find?]

theorem bytesEqCost_eq : ∀ (xs ys : List Nat), (bytesEqCost xs ys).2 = (xs == ys) := by
  intro xs
  induction xs with
  | nil => intro ys; cases ys <;> simp [bytesEqCost]
  | cons a as ih =>
    intro ys
    cases ys with
    | nil => simp [bytesEqCost]
    | cons b bs =>
      show (bytesEqCost (a :: as) (b :: bs)).2 = (a == b && (as == bs))
      unfold bytesEqCost
      by_cases hab : (a == b) = true
      · simp [hab, ih bs]
      · simp only [Bool.not_eq_true] at hab
        simp [hab]

theorem bytesEqCost_firstDiff : ∀ (i : Nat) (xs ys : List Nat),
    xs.take i = ys.take i → i < xs.length → i < ys.length →
    xs.getD i 0 ≠ ys.getD i 0 → (bytesEqCost xs ys).1 = i + 1 := by
  intro i
  induction i with
  | zero =>
    intro xs ys _ hx hy hne
    match xs, ys with
    | a :: as, b :: bs =>
      simp only [List.getD_cons_zero] at hne
      unfold bytesEqCost
      simp [hne]
  | succ i ih =>
    intro xs ys htake hx hy hne
    match xs, ys with
    | a :: as, b :: bs =>
      simp only [List.take_succ_cons, List.cons.injEq] at htake
      unfold bytesEqCost
      simp only [htake.1, beq_self_eq_true, if_true]
      have := ih as bs htake.2 (by simpa using hx) (by simpa using hy)
        (by simpa using hne)
      omega

theorem partLe_trans (a b c : MultipartUploadPart) :
    partLe a b = true → partLe b c = true → partLe a c = true := by
  simp only [partLe, decide_eq_true_eq]
  omega

theorem partLe_total (a b : MultipartUploadPart) :
    (partLe a b || partLe b a) = true := by
  simp only [partLe, Bool.or_eq_true, decide_eq_true_eq]
  omega

/-! ## Shared concrete scenarios -/

/-- A fresh store holding one bucket named `b` with id 0. -/
def demo_bucket_state : SysState := ⟨[⟨0, "b"⟩], [], [], [], [], []⟩

/-- The bytes of "hello", scenario 1 of the spec. -/
def helloBytes : List Nat := [104, 101, 108, 108, 111]

/-- The store after PUT(b, k.txt, "hello") against `demo_bucket_state`. -/
def c1_state_after : SysState :=
  ⟨[⟨0, "b"⟩],
   [⟨0, "k.txt", "5d41402abc4b2a76b9719d911017c592", 5, "text/plain"⟩],
   [], [], [(("b", "k.txt"), helloBytes)], []⟩

/-- One bucket, one catalog object row for key `k`, and a 10-byte file
`[0, …, 9]` stored at (b, k). -/
def range_demo_state : SysState :=
  ⟨[⟨0, "b"⟩], [⟨0, "k", "x", 10, "ct"⟩], [], [],
   [(("b", "k"), List.range 10)], []⟩

/-- One bucket, an open multipart upload `u` (catalog row id 7) whose
temp directory holds no part files yet. -/
def mpu_demo_state : SysState :=
  ⟨[⟨0, "b"⟩], [], [⟨7, 0, "k", "u"⟩], [], [], [("u", ⟨"b", "k", []⟩)]⟩

def c3_put1 : Except ApiError String × SysState :=
  api_put_object demo_bucket_state "b" "k" [1] "binary/octet-stream"

def c3_put2 : Except ApiError String × SysState :=
  api_put_object c3_put1.2 "b" "k" [2] "binary/octet-stream"

def c5_up1 : Except ApiError String × SysState :=
  api_upload_part mpu_demo_state "b" "k" (some "u") (some "1") [1]

def c5_up2 : Except ApiError String × SysState :=
  api_upload_part c5_up1.2 "b" "k" (some "u") (some "1") [2]

/-- Sixty-four letters a: the shape of a presented hex signature. -/
def sig_a : String :=
  "aaaaaaaaaaaaaaaaaaaaaaaaaaaaaaaaaaaaaaaaaaaaaaaaaaaaaaaaaaaaaaaa"

/-- Differs from `sig_a` in its first byte only. -/
def sig_b0 : String :=
  "baaaaaaaaaaaaaaaaaaaaaaaaaaaaaaaaaaaaaaaaaaaaaaaaaaaaaaaaaaaaaaa"

/-- Differs from `sig_a` in its last byte only. -/
def sig_b63 : String :=
  "aaaaaaaaaaaaaaaaaaaaaaaaaaaaaaaaaaaaaaaaaaaaaaaaaaaaaaaaaaaaaaab"

/-! ## Claim theorems -/

set_option maxRecDepth 100000 in
/-- C1 counterexample: after PUT(b, k.txt, "hello") the PUT response
carries ETag "5d41402abc4b2a76b9719d911017c592", but HEAD reports the
size-derived ETag "5"; the two do not match, refuting the claim that
HEAD returns an ETag matching the one PUT returned. -/
theorem c1_head_etag_mismatch :
    (api_put_object demo_bucket_state "b" "k.txt" helloBytes "text/plain").1 =
      .ok "\"5d41402abc4b2a76b9719d911017c592\"" ∧
    api_head_object
        (api_put_object demo_bucket_state "b" "k.txt" helloBytes "text/plain").2
        "b" "k.txt" =
      .ok ⟨"text/plain", 5, "\"5\""⟩ ∧
    ("\"5\"" : String) ≠ "\"5d41402abc4b2a76b9719d911017c592\"" ∧
    ("5" : String) ≠ md5Hex helloBytes := by decide

set_option maxRecDepth 100000 in
/-- C2: the code applies skip/take to the ReaderStream at chunk
granularity and sets Content-Length to the full object size. On the
10-byte object `[0, …, 9]`, GET with Range bytes=2-4 therefore delivers
an empty body with Content-Length 10, where the claim demands the three
bytes `[2, 3, 4]` with Content-Length 3. -/
theorem c2_range_read_chunk_bug :
    api_get_object range_demo_state "b" "k" (some "bytes=2-4") =
      .ok ⟨"binary/octet-stream", 10, "\"10\"", []⟩ ∧
    ((List.range 10).drop 2).take 3 = [2, 3, 4] ∧
    ([] : List Nat) ≠ [2, 3, 4] ∧ (10 : Nat) ≠ 3 := by decide

set_option maxRecDepth 1000000 in
/-- C3: a first PUT(b, k, [1]) succeeds, but a second PUT(b, k, [2])
hits the UNIQUE(bucket_id, key) constraint through the plain INSERT of
ObjectRepository::create and fails as a 500 Database error; the object
row keeps the first ETag while the file on disk already holds the new
bytes. The claim that the second PUT succeeds and replaces the record is
refuted. -/
theorem c3_overwrite_insert_conflict :
    isOkE c3_put1.1 = true ∧
    c3_put2.1 = .error (.database uniqueViolationObjects) ∧
    statusOf (.database uniqueViolationObjects) = 500 ∧
    c3_put2.2.objects = c3_put1.2.objects ∧
    c3_put2.2.objects.map (fun o => o.etag) = [md5Hex [1]] ∧
    fs_lookup c3_put2.2.files "b" "k" = some [2] := by decide

set_option maxRecDepth 1000000 in
/-- C5: the first UploadPart(u, 1, [1]) succeeds; re-uploading part 1
with new bytes [2] rewrites the part file on disk but the plain INSERT
of MultipartPartRepository::create violates
UNIQUE(upload_id, part_number) and the call fails as a 500 Database
error with the old part row retained, refuting the claim that
re-uploading a part number succeeds and replaces its content and ETag. -/
theorem c5_part_reupload_conflict :
    isOkE c5_up1.1 = true ∧
    c5_up2.1 = .error (.database uniqueViolationParts) ∧
    statusOf (.database uniqueViolationParts) = 500 ∧
    c5_up2.2.partRows = c5_up1.2.partRows ∧
    c5_up2.2.partRows.map (fun q => q.etag) = [md5Hex [1]] ∧
    (tmp_lookup c5_up2.2.tmpDirs "u").map (fun d => part_file_lookup d 1) =
      some (some [2]) := by decide

/-- C6 counterexample: completing upload `u` with a reference to part 1,
which has no part file on disk, fails with a Storage error rendered as
HTTP 500 InternalError, not as the BadRequest (HTTP 400) the claim
states; the state is left unchanged. -/
theorem c6_missing_part_storage_error :
    api_complete_multipart_upload mpu_demo_state "b" "k" (some "u") [⟨1, "aa"⟩] =
      (.error (.storage "Part 1 not found"), mpu_demo_state) ∧
    statusOf (.storage "Part 1 not found") = 500 ∧
    errorCodeOf (.storage "Part 1 not found") = "InternalError" ∧
    statusOf (.storage "Part 1 not found") ≠ 400 := by decide

/-- C7 counterexample: a ranged GET with start 12 past the end of the
10-byte object fails as ApiError::Storage, rendered as HTTP 500
InternalError, not as the 400 InvalidRequest the claim states. -/
theorem c7_bad_range_is_storage_500 :
    api_get_object range_demo_state "b" "k" (some "bytes=12-") =
      .error (.storage "Invalid range: 12-9") ∧
    statusOf (.storage "Invalid range: 12-9") = 500 ∧
    errorCodeOf (.storage "Invalid range: 12-9") = "InternalError" ∧
    statusOf (.storage "Invalid range: 12-9") ≠ 400 := by decide

/-- C8 counterexample: two pairs of equal-length 64-byte signatures,
one differing at byte 0 and one at byte 63, make the short-circuiting
comparison execute 1 and 64 byte comparisons respectively, so its
running time does depend on the position of the first differing byte:
the comparison is not constant-time. -/
theorem c8_not_constant_time :
    (strBytes sig_a).length = 64 ∧
    (strBytes sig_b0).length = 64 ∧
    (strBytes sig_b63).length = 64 ∧
    sigEqual sig_a sig_b0 = false ∧
    sigEqual sig_a sig_b63 = false ∧
    (bytesEqCost (strBytes sig_a) (strBytes sig_b0)).1 = 1 ∧
    (bytesEqCost (strBytes sig_a) (strBytes sig_b63)).1 = 64 ∧
    (1 : Nat) ≠ 64 := by decide

/-- C1 (amended): after any successful PUT(b, k, p), the PUT response
ETag is the double-quoted lowercase hex MD5 of p, GET(b, k) returns
exactly the bytes p with Content-Length len(p), and HEAD(b, k) reports
Content-Length len(p); however the ETag HEAD reports is the double-quoted
decimal byte length of p, not the ETag PUT returned. -/
theorem c1_put_get_head_roundtrip (st : SysState) (b k : String) (p : List Nat)
    (ct hdr : String) (st2 : SysState)
    (h : api_put_object st b k p ct = (.ok hdr, st2)) :
    hdr = "\"" ++ md5Hex p ++ "\"" ∧
    api_get_object st2 b k none =
      .ok ⟨guess_content_type k, p.length, "\"" ++ toString p.length ++ "\"", p⟩ ∧
    api_head_object st2 b k =
      .ok ⟨guess_content_type k, p.length, "\"" ++ toString p.length ++ "\""⟩ := by
  unfold api_put_object at h
  cases hb : bucket_find_by_name st.buckets b with
  | none => rw [hb] at h; simp at h
  | some bucket =>
    rw [hb] at h
    unfold put_object at h
    unfold object_create at h
    by_cases hex :
        st.objects.any (fun o => o.bucketId == bucket.id && o.key == k) = true
    · simp [hex] at h
    · simp only [Bool.not_eq_true] at hex
      simp only [List.flatten, List.append_nil, hex, Bool.false_eq_true,
        if_false, Prod.mk.injEq, Except.ok.injEq] at h
      obtain ⟨h1, h2⟩ := h
      have hobjs : ∀ y ∈ st.objects,
          (fun o => o.bucketId == bucket.id && o.key == k) y = false := by
        intro y hy
        simpa using List.any_eq_false.mp hex y hy
      have hrowfind : object_find_by_bucket_and_key
          (st.objects ++ [⟨bucket.id, k, md5Hex p, p.length, ct⟩]) bucket.id k =
          some ⟨bucket.id, k, md5Hex p, p.length, ct⟩ := by
        unfold object_find_by_bucket_and_key
        exact find?_append_last _ st.objects _ hobjs (by simp)
      refine ⟨h1.symm, ?_, ?_⟩
      · rw [← h2]
        simp only [api_get_object, hb, hrowfind, Option.none_bind, get_object,
          fs_lookup_write, chunksOf_flatten readerChunkCap (by decide)]
      · rw [← h2]
        simp only [api_head_object, hb, hrowfind, head_object, fs_lookup_write]

set_option maxRecDepth 1000000 in
/-- C1 witness: the round-trip theorem applied to PUT of "hello" into
bucket b; the MD5 evaluates to the digest of spec scenario 1. -/
theorem c1_put_get_head_roundtrip_witness :
    api_put_object demo_bucket_state "b" "k.txt" helloBytes "text/plain" =
      (.ok "\"5d41402abc4b2a76b9719d911017c592\"", c1_state_after) ∧
    ("\"5d41402abc4b2a76b9719d911017c592\"" = "\"" ++ md5Hex helloBytes ++ "\"" ∧
     api_get_object c1_state_after "b" "k.txt" none =
       .ok ⟨guess_content_type "k.txt", helloBytes.length,
         "\"" ++ toString helloBytes.length ++ "\"", helloBytes⟩ ∧
     api_head_object c1_state_after "b" "k.txt" =
       .ok ⟨guess_content_type "k.txt", helloBytes.length,
         "\"" ++ toString helloBytes.length ++ "\""⟩) :=
  ⟨by decide,
   c1_put_get_head_roundtrip demo_bucket_state "b" "k.txt" helloBytes "text/plain"
     "\"5d41402abc4b2a76b9719d911017c592\"" c1_state_after (by decide)⟩

/-- C4: whenever CompleteMultipartUpload succeeds, the returned ETag is
the lowercase hex MD5 of the binary concatenation of the raw part ETag
strings taken as UTF-8 bytes (not hex-decoded), followed by a dash and
the part count, where the parts are a permutation of the requested ones
ordered ascending by part number; non-contiguous part numbers are never
rejected. -/
theorem c4_multipart_etag_format (tds : TmpDirs) (fs : Fs)
    (request : CompleteMultipartUploadRequest) (etag : String)
    (rest : TmpDirs × Fs)
    (h : complete_multipart_upload tds fs request = .ok (etag, rest)) :
    ∃ sorted_parts : List MultipartUploadPart,
      request.parts.Perm sorted_parts ∧
      sorted_parts.Pairwise (fun p q => p.part_number ≤ q.part_number) ∧
      sorted_parts.length = request.parts.length ∧
      etag = md5Hex ((sorted_parts.map (fun p => strBytes p.etag)).flatten) ++
        "-" ++ toString sorted_parts.length := by
  unfold complete_multipart_upload at h
  cases htd : tmp_lookup tds request.upload_id with
  | none => rw [htd] at h; simp at h
  | some dir =>
    rw [htd] at h
    by_cases hmm :
        (dir.metaBucket != request.bucket || dir.metaKey != request.key) = true
    · simp [hmm] at h
    · simp only [Bool.not_eq_true] at hmm
      simp only [hmm, Bool.false_eq_true, if_false] at h
      cases hfind : (sortByStable partLe request.parts).find?
          (fun p => (part_file_lookup dir p.part_number).isNone) with
      | some q => rw [hfind] at h; simp at h
      | none =>
        rw [hfind] at h
        simp only [Except.ok.injEq, Prod.mk.injEq] at h
        refine ⟨sortByStable partLe request.parts,
          (sortByStable_perm partLe request.parts).symm, ?_, ?_, h.1.symm⟩
        · exact (sortByStable_pairwise partLe partLe_trans partLe_total
            request.parts).imp (fun hab => by
              simpa [partLe] using hab)
        · exact (sortByStable_perm partLe request.parts).length_eq

def c4_tds : TmpDirs := [("u", ⟨"b", "k", [(1, [1]), (2, [2, 2])]⟩)]

def c4_req : CompleteMultipartUploadRequest :=
  ⟨"b", "k", "u", [⟨2, "bb", 0⟩, ⟨1, "aa", 0⟩]⟩

set_option maxRecDepth 1000000 in
/-- C4 witness: completing an upload with parts presented out of order
(2 then 1, ETags "bb" and "aa") returns the hex MD5 of the bytes of
"aabb" followed by "-2". -/
theorem c4_multipart_etag_format_witness :
    complete_multipart_upload c4_tds [] c4_req =
      .ok ("5e394281dfac81c1e7dddcaf4d35d1f6-2", [], [(("b", "k"), [1, 2, 2])]) ∧
    (∃ sorted_parts : List MultipartUploadPart,
      c4_req.parts.Perm sorted_parts ∧
      sorted_parts.Pairwise (fun p q => p.part_number ≤ q.part_number) ∧
      sorted_parts.length = c4_req.parts.length ∧
      "5e394281dfac81c1e7dddcaf4d35d1f6-2" =
        md5Hex ((sorted_parts.map (fun p => strBytes p.etag)).flatten) ++
          "-" ++ toString sorted_parts.length) :=
  ⟨rfl,
   c4_multipart_etag_format c4_tds [] c4_req "5e394281dfac81c1e7dddcaf4d35d1f6-2"
     ([], [(("b", "k"), [1, 2, 2])]) rfl⟩

/-- C6 (amended): on CompleteMultipartUpload, a request bucket/key that
does not match the upload row fails as BadRequest with the state
untouched; a referenced part number with no part file on disk fails as a
Storage error (rendered 500 InternalError), also with the state
untouched — not as the BadRequest the claim states for that case. -/
theorem c6_complete_validation (st : SysState)
    (bucket_name key upload_id : String) (req_parts : List CompletedPartRequest)
    (upload : UploadRow) (bucket : BucketRow)
    (hu : upload_find_by_upload_id st.uploads upload_id = some upload)
    (hb : bucket_find_by_name st.buckets bucket_name = some bucket) :
    ((upload.bucketId ≠ bucket.id ∨ upload.objectKey ≠ key) →
      api_complete_multipart_upload st bucket_name key (some upload_id) req_parts =
        (.error (.badRequest "Upload bucket/key mismatch"), st)) ∧
    (∀ (dir : UploadDir) (p : MultipartUploadPart),
      upload.bucketId = bucket.id → upload.objectKey = key →
      tmp_lookup st.tmpDirs upload_id = some dir →
      dir.metaBucket = bucket_name → dir.metaKey = key →
      (sortByStable partLe (req_parts.map (fun q =>
          (⟨q.part_number, trimQuotes q.etag, 0⟩ : MultipartUploadPart)))).find?
          (fun q => (part_file_lookup dir q.part_number).isNone) = some p →
      api_complete_multipart_upload st bucket_name key (some upload_id) req_parts =
        (.error (.storage ("Part " ++ toString p.part_number ++ " not found")), st)) := by
  constructor
  · intro hmis
    have hcond : (upload.bucketId != bucket.id || upload.objectKey != key) = true := by
      rcases hmis with hx | hx <;> simp [bne_iff_ne, hx]
    simp only [api_complete_multipart_upload, hu, hb, hcond, if_true]
  · intro dir p h1 h2 htd hmb hmk hfind
    have hcond : (upload.bucketId != bucket.id || upload.objectKey != key) = false := by
      simp [h1, h2]
    have hmm : (dir.metaBucket != bucket_name || dir.metaKey != key) = false := by
      simp [hmb, hmk]
    simp only [api_complete_multipart_upload, hu, hb, hcond, Bool.false_eq_true,
      if_false, complete_multipart_upload, htd, hmm, hfind]

/-- C6 witness: against the same upload row, a request with the wrong
key fails BadRequest, and a matching request referencing the absent part
1 fails as a Storage error; both leave the state exactly as it was. -/
theorem c6_complete_validation_witness :
    api_complete_multipart_upload mpu_demo_state "b" "wrong" (some "u") [⟨1, "aa"⟩] =
      (.error (.badRequest "Upload bucket/key mismatch"), mpu_demo_state) ∧
    api_complete_multipart_upload mpu_demo_state "b" "k" (some "u") [⟨1, "aa"⟩] =
      (.error (.storage ("Part " ++
        toString (⟨1, trimQuotes "aa", 0⟩ : MultipartUploadPart).part_number ++
        " not found")), mpu_demo_state) :=
  ⟨(c6_complete_validation mpu_demo_state "b" "wrong" "u" [⟨1, "aa"⟩]
      ⟨7, 0, "k", "u"⟩ ⟨0, "b"⟩ (by decide) (by decide)).1
      (Or.inr (by decide)),
   (c6_complete_validation mpu_demo_state "b" "k" "u" [⟨1, "aa"⟩]
      ⟨7, 0, "k", "u"⟩ ⟨0, "b"⟩ (by decide) (by decide)).2
      ⟨"b", "k", []⟩ ⟨1, trimQuotes "aa", 0⟩ rfl rfl (by decide) rfl rfl (by decide)⟩

/-- C7 (amended): a ranged GET on an existing object with start past the
clamped end or past the object length fails with the storage error kind,
which the error layer renders as HTTP 500 InternalError, not as a
BadRequest/400. -/
theorem c7_range_error_rendered_500 (st : SysState) (b k : String)
    (bucket : BucketRow) (row : ObjRow) (contents : List Nat) (hdr : String)
    (s : Nat) (eOpt : Option Nat)
    (hb : bucket_find_by_name st.buckets b = some bucket)
    (ho : object_find_by_bucket_and_key st.objects bucket.id k = some row)
    (hf : fs_lookup st.files b k = some contents)
    (hr : parse_range_header hdr = some (s, eOpt))
    (hbad : s > min (eOpt.getD (contents.length - 1)) (contents.length - 1) ∨
      s ≥ contents.length) :
    api_get_object st b k (some hdr) =
      .error (.storage ("Invalid range: " ++ toString s ++ "-" ++
        toString (min (eOpt.getD (contents.length - 1)) (contents.length - 1)))) ∧
    statusOf (.storage ("Invalid range: " ++ toString s ++ "-" ++
        toString (min (eOpt.getD (contents.length - 1)) (contents.length - 1)))) =
      500 := by
  refine ⟨?_, rfl⟩
  have hcond : (decide (s > min (eOpt.getD (contents.length - 1))
      (contents.length - 1)) || decide (s ≥ contents.length)) = true := by
    rcases hbad with hx | hx <;> simp [hx]
  simp only [api_get_object, hb, ho, Option.some_bind, hr, get_object, hf,
    hcond, if_true]

/-- C7 witness: the 500-rendering theorem applied to the 10-byte object
and the header bytes=12-. -/
theorem c7_range_error_rendered_500_witness :
    api_get_object range_demo_state "b" "k" (some "bytes=12-") =
      .error (.storage ("Invalid range: " ++ toString 12 ++ "-" ++
        toString (min ((none : Option Nat).getD ((List.range 10).length - 1))
          ((List.range 10).length - 1)))) ∧
    statusOf (.storage ("Invalid range: " ++ toString 12 ++ "-" ++
        toString (min ((none : Option Nat).getD ((List.range 10).length - 1))
          ((List.range 10).length - 1)))) = 500 :=
  c7_range_error_rendered_500 range_demo_state "b" "k" ⟨0, "b"⟩
    ⟨0, "k", "x", 10, "ct"⟩ (List.range 10) "bytes=12-" 12 none
    (by decide) (by decide) (by decide) (by decide) (Or.inr (by decide))

/-- C8 (amended): the validator compares the computed and presented
signatures with ordinary short-circuiting byte equality, so the result
equals byte-string equality but the number of byte comparisons executed
is one more than the index of the first differing byte: the running
time depends on that position, and the comparison is not constant-time. -/
theorem c8_comparison_shortcircuit (s t : String) (i : Nat) :
    sigEqual s t = (bytesEqCost (strBytes s) (strBytes t)).2 ∧
    ((strBytes s).take i = (strBytes t).take i →
      i < (strBytes s).length → i < (strBytes t).length →
      (strBytes s).getD i 0 ≠ (strBytes t).getD i 0 →
      (bytesEqCost (strBytes s) (strBytes t)).1 = i + 1) :=
  ⟨(bytesEqCost_eq (strBytes s) (strBytes t)).symm,
   fun h1 h2 h3 h4 => bytesEqCost_firstDiff i (strBytes s) (strBytes t) h1 h2 h3 h4⟩

/-- C8 witness: two 64-byte signatures first differing at index 63 cost
64 byte comparisons. -/
theorem c8_comparison_shortcircuit_witness :
    sigEqual sig_a sig_b63 = (bytesEqCost (strBytes sig_a) (strBytes sig_b63)).2 ∧
    (bytesEqCost (strBytes sig_a) (strBytes sig_b63)).1 = 63 + 1 :=
  ⟨(c8_comparison_shortcircuit sig_a sig_b63 63).1,
   (c8_comparison_shortcircuit sig_a sig_b63 63).2
     (by decide) (by decide) (by decide) (by decide)⟩

/-- C9: signature validation returns Ok exactly when the absolute
difference between the server clock and the request timestamp is at most
15 minutes; past the window it is rejected with the timestamp error, and
within the window the clock-skew check never rejects. -/
theorem c9_clock_skew_window (secret_key access_key method uri query_string : String)
    (headers : List (String × String)) (payload_hash signature : String)
    (timestamp : Timestamp) (now : Int) (region service : String) :
    (isOkE (validate_signature secret_key access_key method uri query_string
        headers payload_hash signature timestamp now region service) = true ↔
      (now - timestamp.epoch).natAbs ≤ skewLimitSeconds) ∧
    ((now - timestamp.epoch).natAbs > skewLimitSeconds →
      validate_signature secret_key access_key method uri query_string
        headers payload_hash signature timestamp now region service =
        .error "Request timestamp too old") := by
  unfold validate_signature
  by_cases h : (now - timestamp.epoch).natAbs > skewLimitSeconds
  · rw [if_pos h]
    refine ⟨?_, fun _ => rfl⟩
    simp only [isOkE, Bool.false_eq_true, false_iff]
    omega
  · rw [if_neg h]
    refine ⟨?_, fun hgt => absurd hgt h⟩
    simp only [isOkE, true_iff]
    omega

/-- C9 witness: a request 901 seconds stale is rejected with the
timestamp error; one 900 seconds stale passes the clock-skew gate. -/
theorem c9_clock_skew_window_witness :
    validate_signature "sec" "ak" "GET" "/" "" [] "ph" "sig"
      ⟨0, "20130524", "20130524T000000Z"⟩ 901 "us-east-1" "s3" =
      .error "Request timestamp too old" ∧
    isOkE (validate_signature "sec" "ak" "GET" "/" "" [] "ph" "sig"
      ⟨0, "20130524", "20130524T000000Z"⟩ 900 "us-east-1" "s3") = true :=
  ⟨(c9_clock_skew_window "sec" "ak" "GET" "/" "" [] "ph" "sig"
      ⟨0, "20130524", "20130524T000000Z"⟩ 901 "us-east-1" "s3").2 (by decide),
   (c9_clock_skew_window "sec" "ak" "GET" "/" "" [] "ph" "sig"
      ⟨0, "20130524", "20130524T000000Z"⟩ 900 "us-east-1" "s3").1.mpr (by decide)⟩

/-- C10: the credential lookup only ever returns rows with is_active
true, so a key deactivated by `deactivate`, or an expired key once
`cleanup_expired` has swept it, is never handed to the signature
validator. -/
theorem c10_inactive_keys_hidden (table : List AccessKey) (akid : String)
    (now : Int) :
    (∀ k, find_by_access_key_id table akid = some k → k.isActive = true) ∧
    find_by_access_key_id (deactivate table akid) akid = none ∧
    ((∀ k ∈ table, k.accessKeyId = akid → ∃ e, k.expiresAt = some e ∧ e < now) →
      find_by_access_key_id (cleanup_expired table now) akid = none) := by
  refine ⟨?_, ?_, ?_⟩
  · intro k hk
    have h := List.find?_some hk
    simp only [Bool.and_eq_true] at h
    exact h.2
  · rw [find_by_access_key_id, List.find?_eq_none]
    intro x hx
    simp only [deactivate, List.mem_map] at hx
    obtain ⟨y, hy, hxy⟩ := hx
    by_cases hid : (y.accessKeyId == akid) = true
    · rw [← hxy]
      simp [hid]
    · rw [← hxy]
      simp [hid]
  · intro hexp
    rw [find_by_access_key_id, List.find?_eq_none]
    intro x hx
    simp only [cleanup_expired, List.mem_map] at hx
    obtain ⟨y, hy, hxy⟩ := hx
    by_cases hid : y.accessKeyId = akid
    · obtain ⟨e, he, hlt⟩ := hexp y hy hid
      rw [← hxy]
      simp [he, hlt]
    · rw [← hxy]
      cases hy2 : y.expiresAt with
      | none => simp [hy2, hid]
      | some e =>
        by_cases hlt : e < now
        · simp [hy2, hlt, hid]
        · simp [hy2, hlt, hid]

/-- C10 witness: on a one-row table holding key AK expiring at 10,
deactivation hides it, and the expiration sweep at time 100 hides it. -/
theorem c10_inactive_keys_hidden_witness :
    find_by_access_key_id (deactivate [⟨"AK", "s", some 10, true⟩] "AK") "AK" =
      none ∧
    find_by_access_key_id (cleanup_expired [⟨"AK", "s", some 10, true⟩] 100) "AK" =
      none :=
  ⟨(c10_inactive_keys_hidden [⟨"AK", "s", some 10, true⟩] "AK" 100).2.1,
   (c10_inactive_keys_hidden [⟨"AK", "s", some 10, true⟩] "AK" 100).2.2
     (by
       intro k hk hak
       simp only [List.mem_singleton] at hk
       exact ⟨10, by rw [hk], by norm_num⟩)⟩

end Ghostbay
